import Mathlib

/-!
Shallow embedding of the midibot SMF (Standard MIDI File) parser core
(package `midi`, the structured revision returning typed events), together
with proofs about its behaviour.

Machine integers are modelled as `Nat`/`Int` with explicit reductions:
Go `byte` shifts are taken modulo 256 (`byteShl`), the `uint64` varint
accumulator is taken modulo 2^64 where Go would truncate, and the signed
big-endian fields (`int32`/`int16`) are decoded through `toSigned`.
`bytes.Buffer` is modelled as an immutable byte list plus a read position,
which supports the one-byte `UnreadByte` pushback used for running status.
-/

namespace Midibot

/-- The error values declared at the top of the Go source. -/
inductive Err where
  | eof
  | notImplemented
  | invalidHeader
  | invalidCommandCode
  | invalidMetaEventType
  | invalidTempoLength
  | invalidTimeSignatureLength
  | invalidKeySignatureLen
  | invalidTrackEndLength
  | invalidPitchWheelByte
  | invalidPatch
  | invalidAfterTouchPressure
  | invalidSmpteOffset
  | varInt32Overflow
  | bufferUnreadByte
  deriving DecidableEq, Repr

instance {ε α : Type} [DecidableEq ε] [DecidableEq α] : DecidableEq (Except ε α) := fun x y =>
  match x, y with
  | .error a, .error b =>
    if h : a = b then .isTrue (congrArg Except.error h)
    else .isFalse (fun hc => h (Except.error.inj hc))
  | .ok a, .ok b =>
    if h : a = b then .isTrue (congrArg Except.ok h)
    else .isFalse (fun hc => h (Except.ok.inj hc))
  | .error _, .ok _ => .isFalse (fun hc => Except.noConfusion hc)
  | .ok _, .error _ => .isFalse (fun hc => Except.noConfusion hc)

/-- Model of `bytes.Buffer`: the full byte list plus the current read position. -/
structure Buffer where
  data : List Nat
  pos : Nat
  deriving DecidableEq, Repr

/-- `buffer.Len()`: number of unread bytes. -/
def Buffer.len (buf : Buffer) : Nat := buf.data.length - buf.pos

/-- `buffer.ReadByte()`: next byte or `io.EOF`; consumes one byte on success. -/
def Buffer.readByte (buf : Buffer) : Except Err (Nat × Buffer) :=
  match buf.data[buf.pos]? with
  | some b => .ok (b, { buf with pos := buf.pos + 1 })
  | none => .error .eof

/-- `buffer.UnreadByte()`: rewind exactly one byte (fails when nothing was read). -/
def Buffer.unreadByte (buf : Buffer) : Except Err Buffer :=
  if buf.pos = 0 then .error .bufferUnreadByte
  else .ok { buf with pos := buf.pos - 1 }

/-- `buffer.Read` into an `n`-byte slice followed by the `l != len(buffer)`
check of `Midi.ReadBytes`: consumes `min n remaining` bytes and succeeds
exactly when `n` bytes were available. -/
def Buffer.readBytes (buf : Buffer) (n : Nat) : Except Err (List Nat) × Buffer :=
  let m := min n buf.len
  let buf' : Buffer := { buf with pos := buf.pos + m }
  if m = n then (.ok ((buf.data.drop buf.pos).take n), buf') else (.error .eof, buf')

/-- Big-endian value of a byte list. -/
def beNat (bs : List Nat) : Nat := bs.foldl (fun acc b => acc * 256 + b) 0

/-- Two's-complement reading of a `w`-bit unsigned value, as used for the
`int32`/`int16` fields read with `binary.Read(..., binary.BigEndian, ...)`. -/
def toSigned (u w : Nat) : Int :=
  if u < 2 ^ (w - 1) then (u : Int) else (u : Int) - 2 ^ w

/-- `binary.Read` of an `nbytes`-byte big-endian signed integer. -/
def Buffer.readIntBE (buf : Buffer) (nbytes : Nat) : Except Err Int × Buffer :=
  match buf.readBytes nbytes with
  | (.ok bs, buf') => (.ok (toSigned (beNat bs) (8 * nbytes)), buf')
  | (.error e, buf') => (.error e, buf')

/-- Go shift of a `byte` operand: the result is truncated to 8 bits. -/
def byteShl (b n : Nat) : Nat := (b <<< n) % 256

/-- `Midi.ReadUVarInt`'s loop, with the accumulator `x`, the shift `s` and the
iteration counter `i` made explicit.  The `uint64` shifts are taken modulo
2^64 exactly where Go truncates them.  The leading `fuel` argument is a
structural termination measure: every iteration consumes one byte, so the
`buf.len + 1` supplied by `ReadUVarInt` never reaches the (end-of-input-like)
zero case. -/
def readUVarIntAux : Nat → Buffer → Nat → Nat → Nat → (Option Err × Nat) × Buffer
  | 0, buf, _, _, _ => ((some .varInt32Overflow, 0), buf)
  | fuel + 1, buf, x, s, i =>
    match buf.readByte with
    | .error _ => ((some .varInt32Overflow, 0), buf)
    | .ok (b, buf') =>
      if b < 0x80 then
        if i > 5 ∨ (i = 5 ∧ b > 1) then ((some .varInt32Overflow, 0), buf')
        else ((none, x ||| ((b <<< s) % 2 ^ 64)), buf')
      else readUVarIntAux fuel buf' (x ||| (((b &&& 0x7f) <<< s) % 2 ^ 64)) (s + 7) (i + 1)

/-- `Midi.ReadUVarInt`: the 7-bit/continuation varint decoder.  Returns the Go
pair (value, error) — the value is 0 alongside any error — plus the buffer. -/
def ReadUVarInt (buf : Buffer) : (Option Err × Nat) × Buffer :=
  readUVarIntAux (buf.len + 1) buf 0 0 0

/-- Modelled from the spec: the repository contains no varint encoder, only
the decoder `ReadUVarInt`; this is the spec's "7-bit-per-byte low-order-first
continuation-bit scheme" (continuation bit 0x80 on every byte but the last). -/
def encodeUVarInt (v : Nat) : List Nat :=
  if v < 0x80 then [v] else (v % 0x80 + 0x80) :: encodeUVarInt (v / 0x80)
termination_by v
decreasing_by exact Nat.div_lt_self (by omega) (by omega)

def CommandCodeNoteOff : Nat := 0x80

def CommandCodeNoteOn : Nat := 0x90

def CommandCodeKeyAfterTouch : Nat := 0xA0

def CommandCodeControlChange : Nat := 0xB0

def CommandCodePatchChange : Nat := 0xC0

def CommandCodeChannelAfterTouch : Nat := 0xD0

def CommandCodePitchWheelChange : Nat := 0xE0

def CommandCodeSysex : Nat := 0xF0

def CommandCodeEox : Nat := 0xF7

def CommandCodeTimingClock : Nat := 0xF8

def CommandCodeStartSequence : Nat := 0xFA

def CommandCodeContinueSequence : Nat := 0xFB

def CommandCodeStopSequence : Nat := 0xFC

def CommandCodeAutoSensing : Nat := 0xFE

def CommandCodeMetaEvent : Nat := 0xFF

def MetaEventTrackSequenceNumber : Nat := 0x00

def MetaEventTextEvent : Nat := 0x01

def MetaEventCopyright : Nat := 0x02

def MetaEventSequenceTrackName : Nat := 0x03

def MetaEventTrackInstrumentName : Nat := 0x04

def MetaEventLyric : Nat := 0x05

def MetaEventMarker : Nat := 0x06

def MetaEventCuePoint : Nat := 0x07

def MetaEventProgramName : Nat := 0x08

def MetaEventDeviceName : Nat := 0x09

def MetaEventMidiChannel : Nat := 0x20

def MetaEventMidiPort : Nat := 0x21

def MetaEventEndTrack : Nat := 0x2F

def MetaEventSetTempo : Nat := 0x51

def MetaEventSmpteOffset : Nat := 0x54

def MetaEventTimeSignature : Nat := 0x58

def MetaEventKeySignature : Nat := 0x59

def MetaEventSequencerSpecific : Nat := 0x7F

/-- The `Event` struct embedded in every concrete event: delta (`uint64`),
running-status command code (`byte`) and channel (`uint8`). -/
structure EventState where
  delta : Nat
  commandCode : Nat
  channel : Nat
  deriving DecidableEq, Repr

/-- The concrete event structs implementing the `MidiEvent` interface.  Text
is kept as its raw bytes (Go converts them to a string). -/
inductive MEvent where
  | noteOn (e : EventState) (key velocity : Nat)
  | noteOff (e : EventState) (key velocity : Nat)
  | controlChange (e : EventState) (key pressure : Nat)
  | patchChange (e : EventState) (patch : Nat)
  | afterTouch (e : EventState) (pressure : Nat)
  | pitchWheel (e : EventState) (pitch : Int)
  | sysex (e : EventState) (data : List Nat)
  | sequencerSpecific (e : EventState) (data : List Nat)
  | smpteOffset (e : EventState) (hours minutes seconds frames subFrames : Nat)
  | keySignature (e : EventState) (sharpsFlats majorMinor : Nat)
  | timeSignature (e : EventState)
      (numerator denominator ticksInMetronomeClick no32ndNotesInQuarterNote : Nat)
  | text (e : EventState) (bytes : List Nat)
  | tempo (e : EventState) (microsecondsPerQuarterNote : Int)
  deriving DecidableEq, Repr

/-- The `Mthd` header struct (`int32` length, `int16` format/tracks/division). -/
structure Mthd where
  length : Int
  format : Int
  tracks : Int
  division : Int
  deriving DecidableEq, Repr

/-- The `Mtrk` track-frame struct: `int16` track counter, `int32` declared
length, `int` end position (remaining-bytes budget), `uint64` cumulative time. -/
structure Mtrk where
  track : Int
  length : Int
  end_pos : Int
  time_pos : Nat
  deriving DecidableEq, Repr

/-- The `Midi` decoder struct. -/
structure Midi where
  buffer : Buffer
  mthd : Mthd
  mtrk : Mtrk
  event : EventState
  deriving DecidableEq, Repr

/-- `NewMidi`: a fresh decoder over `data`; every other field is the Go zero
value. -/
def NewMidi (data : List Nat) : Midi :=
  { buffer := { data := data, pos := 0 }
    mthd := { length := 0, format := 0, tracks := 0, division := 0 }
    mtrk := { track := 0, length := 0, end_pos := 0, time_pos := 0 }
    event := { delta := 0, commandCode := 0, channel := 0 } }

/-- `Midi.ReadSysexEvent`'s accumulation loop: bytes until the 0xF7
terminator.  `fuel` is a structural termination measure; every iteration
consumes one byte, so the `buf.len + 1` supplied by `ReadSysexEvent` never
reaches the (end-of-input-like) zero case. -/
def readSysexData : Nat → Buffer → List Nat → Except Err (List Nat) × Buffer
  | 0, buf, _ => (.error .eof, buf)
  | fuel + 1, buf, acc =>
    match buf.readByte with
    | .error e => (.error e, buf)
    | .ok (b, buf') =>
      if b = 0xF7 then (.ok acc, buf')
      else readSysexData fuel buf' (acc ++ [b])

/-- `Midi.ReadSysexEvent`. -/
def Midi.ReadSysexEvent (midi : Midi) : Except Err (Option MEvent) × Buffer :=
  match readSysexData (midi.buffer.len + 1) midi.buffer [] with
  | (.error e, buf') => (.error e, buf')
  | (.ok data, buf') => (.ok (some (.sysex midi.event data)), buf')

/-- `Midi.ReadAfterTouchEvent` (channel after-touch, 0xD0). -/
def Midi.ReadAfterTouchEvent (midi : Midi) : Except Err (Option MEvent) × Buffer :=
  match midi.buffer.readByte with
  | .error e => (.error e, midi.buffer)
  | .ok (pressure, buf1) =>
    if pressure &&& 0x80 ≠ 0 then (.error .invalidAfterTouchPressure, buf1)
    else (.ok (some (.afterTouch midi.event pressure)), buf1)

/-- `Midi.ReadPatchChangeEvent` (program change, 0xC0). -/
def Midi.ReadPatchChangeEvent (midi : Midi) : Except Err (Option MEvent) × Buffer :=
  match midi.buffer.readByte with
  | .error e => (.error e, midi.buffer)
  | .ok (patch, buf1) =>
    if patch &&& 0x80 ≠ 0 then (.error .invalidPatch, buf1)
    else (.ok (some (.patchChange midi.event patch)), buf1)

/-- `Midi.ReadPitchWheelEvent` (0xE0).  The Go source computes
`int(b1) + int(b2<<7)` where `b2<<7` is a `byte` shift, hence `byteShl b2 7`. -/
def Midi.ReadPitchWheelEvent (midi : Midi) : Except Err (Option MEvent) × Buffer :=
  match midi.buffer.readByte with
  | .error e => (.error e, midi.buffer)
  | .ok (b1, buf1) =>
    match buf1.readByte with
    | .error e => (.error e, buf1)
    | .ok (b2, buf2) =>
      if b1 &&& 0x80 ≠ 0 then (.error .invalidPitchWheelByte, buf2)
      else if b2 &&& 0x80 ≠ 0 then (.error .invalidPitchWheelByte, buf2)
      else (.ok (some (.pitchWheel midi.event ((b1 : Int) + (byteShl b2 7 : Int)))), buf2)

/-- `Midi.ReadControlChangeEvent` (0xB0). -/
def Midi.ReadControlChangeEvent (midi : Midi) : Except Err (Option MEvent) × Buffer :=
  match midi.buffer.readByte with
  | .error e => (.error e, midi.buffer)
  | .ok (key, buf1) =>
    match buf1.readByte with
    | .error e => (.error e, buf1)
    | .ok (pressure, buf2) => (.ok (some (.controlChange midi.event key pressure)), buf2)

/-- `Midi.ReadNoteOnEvent` (0x90). -/
def Midi.ReadNoteOnEvent (midi : Midi) : Except Err (Option MEvent) × Buffer :=
  match midi.buffer.readByte with
  | .error e => (.error e, midi.buffer)
  | .ok (key, buf1) =>
    match buf1.readByte with
    | .error e => (.error e, buf1)
    | .ok (velocity, buf2) => (.ok (some (.noteOn midi.event key velocity)), buf2)

/-- `Midi.ReadNoteOffEvent` (0x80, also used for key after-touch 0xA0). -/
def Midi.ReadNoteOffEvent (midi : Midi) : Except Err (Option MEvent) × Buffer :=
  match midi.buffer.readByte with
  | .error e => (.error e, midi.buffer)
  | .ok (key, buf1) =>
    match buf1.readByte with
    | .error e => (.error e, buf1)
    | .ok (velocity, buf2) => (.ok (some (.noteOff midi.event key velocity)), buf2)

/-- `Midi.ReadSequencerSpecificEvent` (meta 0x7F). -/
def Midi.ReadSequencerSpecificEvent (midi : Midi) (len : Nat) :
    Except Err (Option MEvent) × Buffer :=
  match midi.buffer.readBytes len with
  | (.error e, buf') => (.error e, buf')
  | (.ok data, buf') => (.ok (some (.sequencerSpecific midi.event data)), buf')

/-- `Midi.ReadSmpteOffsetEvent` (meta 0x54): length must be 5. -/
def Midi.ReadSmpteOffsetEvent (midi : Midi) (len : Nat) :
    Except Err (Option MEvent) × Buffer :=
  if len ≠ 5 then (.error .invalidSmpteOffset, midi.buffer)
  else
    match midi.buffer.readByte with
    | .error e => (.error e, midi.buffer)
    | .ok (hours, buf1) =>
      match buf1.readByte with
      | .error e => (.error e, buf1)
      | .ok (minutes, buf2) =>
        match buf2.readByte with
        | .error e => (.error e, buf2)
        | .ok (seconds, buf3) =>
          match buf3.readByte with
          | .error e => (.error e, buf3)
          | .ok (frames, buf4) =>
            match buf4.readByte with
            | .error e => (.error e, buf4)
            | .ok (subFrames, buf5) =>
              (.ok (some (.smpteOffset midi.event hours minutes seconds frames subFrames)),
                buf5)

/-- `Midi.ReadKeySignatureEvent` (meta 0x59): length must be 2. -/
def Midi.ReadKeySignatureEvent (midi : Midi) (len : Nat) :
    Except Err (Option MEvent) × Buffer :=
  if len ≠ 2 then (.error .invalidKeySignatureLen, midi.buffer)
  else
    match midi.buffer.readByte with
    | .error e => (.error e, midi.buffer)
    | .ok (sharpsFlats, buf1) =>
      match buf1.readByte with
      | .error e => (.error e, buf1)
      | .ok (majorMinor, buf2) =>
        (.ok (some (.keySignature midi.event sharpsFlats majorMinor)), buf2)

/-- `Midi.ReadTimeSignatureEvent` (meta 0x58): length must be 4. -/
def Midi.ReadTimeSignatureEvent (midi : Midi) (len : Nat) :
    Except Err (Option MEvent) × Buffer :=
  if len ≠ 4 then (.error .invalidTimeSignatureLength, midi.buffer)
  else
    match midi.buffer.readByte with
    | .error e => (.error e, midi.buffer)
    | .ok (numerator, buf1) =>
      match buf1.readByte with
      | .error e => (.error e, buf1)
      | .ok (denominator, buf2) =>
        match buf2.readByte with
        | .error e => (.error e, buf2)
        | .ok (ticksInMetronomeClick, buf3) =>
          match buf3.readByte with
          | .error e => (.error e, buf3)
          | .ok (no32ndNotesInQuarterNote, buf4) =>
            (.ok (some (.timeSignature midi.event numerator denominator
              ticksInMetronomeClick no32ndNotesInQuarterNote)), buf4)

/-- `Midi.ReadTextEvent` (meta 0x01–0x09): `len` raw bytes; empty on `len = 0`. -/
def Midi.ReadTextEvent (midi : Midi) (len : Nat) : Except Err (Option MEvent) × Buffer :=
  if 0 < len then
    match midi.buffer.readBytes len with
    | (.error e, buf') => (.error e, buf')
    | (.ok bs, buf') => (.ok (some (.text midi.event bs)), buf')
  else (.ok (some (.text midi.event [])), midi.buffer)

/-- `Midi.ReadTempoEvent` (meta 0x51): length must be 3.  The Go source
computes `int(b1<<16) + int(b2<<8) + int(b3)` where the shifts are `byte`
shifts, hence `byteShl`. -/
def Midi.ReadTempoEvent (midi : Midi) (len : Nat) : Except Err (Option MEvent) × Buffer :=
  if len ≠ 3 then (.error .invalidTempoLength, midi.buffer)
  else
    match midi.buffer.readByte with
    | .error e => (.error e, midi.buffer)
    | .ok (b1, buf1) =>
      match buf1.readByte with
      | .error e => (.error e, buf1)
      | .ok (b2, buf2) =>
        match buf2.readByte with
        | .error e => (.error e, buf2)
        | .ok (b3, buf3) =>
          (.ok (some (.tempo midi.event
            ((byteShl b1 16 : Int) + (byteShl b2 8 : Int) + (b3 : Int)))), buf3)

/-- `Midi.ReadTrackSequenceNumber` (meta 0x00): not implemented. -/
def Midi.ReadTrackSequenceNumber (midi : Midi) (len : Nat) :
    Except Err (Option MEvent) × Buffer :=
  (.error .notImplemented, midi.buffer)

/-- `Midi.ReadMetaEvent` (status 0xFF): meta-type byte, varint length, dispatch. -/
def Midi.ReadMetaEvent (midi : Midi) : Except Err (Option MEvent) × Buffer :=
  match midi.buffer.readByte with
  | .error e => (.error e, midi.buffer)
  | .ok (metaEvent, buf1) =>
    match ReadUVarInt buf1 with
    | ((some e, _), buf2) => (.error e, buf2)
    | ((none, len), buf2) =>
      let m2 : Midi := { midi with buffer := buf2 }
      if metaEvent = MetaEventTrackSequenceNumber then m2.ReadTrackSequenceNumber len
      else if metaEvent = MetaEventTextEvent ∨ metaEvent = MetaEventCopyright ∨
          metaEvent = MetaEventSequenceTrackName ∨ metaEvent = MetaEventTrackInstrumentName ∨
          metaEvent = MetaEventLyric ∨ metaEvent = MetaEventMarker ∨
          metaEvent = MetaEventCuePoint ∨ metaEvent = MetaEventProgramName ∨
          metaEvent = MetaEventDeviceName then m2.ReadTextEvent len
      else if metaEvent = MetaEventMidiChannel then (.error .notImplemented, buf2)
      else if metaEvent = MetaEventMidiPort then (.error .notImplemented, buf2)
      else if metaEvent = MetaEventEndTrack then
        if len ≠ 0 then (.error .invalidTrackEndLength, buf2) else (.ok none, buf2)
      else if metaEvent = MetaEventSetTempo then m2.ReadTempoEvent len
      else if metaEvent = MetaEventSmpteOffset then m2.ReadSmpteOffsetEvent len
      else if metaEvent = MetaEventTimeSignature then m2.ReadTimeSignatureEvent len
      else if metaEvent = MetaEventKeySignature then m2.ReadKeySignatureEvent len
      else if metaEvent = MetaEventSequencerSpecific then m2.ReadSequencerSpecificEvent len
      else (.error .invalidMetaEventType, buf2)

/-- The command dispatch switch at the bottom of `Midi.ReadEvent`; every case
only consumes buffer bytes, so it returns the new buffer alongside the result. -/
def Midi.dispatchEvent (midi : Midi) : Except Err (Option MEvent) × Buffer :=
  if midi.event.commandCode = CommandCodeNoteOn then midi.ReadNoteOnEvent
  else if midi.event.commandCode = CommandCodeNoteOff ∨
      midi.event.commandCode = CommandCodeKeyAfterTouch then midi.ReadNoteOffEvent
  else if midi.event.commandCode = CommandCodeControlChange then midi.ReadControlChangeEvent
  else if midi.event.commandCode = CommandCodePatchChange then midi.ReadPatchChangeEvent
  else if midi.event.commandCode = CommandCodeChannelAfterTouch then midi.ReadAfterTouchEvent
  else if midi.event.commandCode = CommandCodePitchWheelChange then midi.ReadPitchWheelEvent
  else if midi.event.commandCode = CommandCodeSysex then midi.ReadSysexEvent
  else if midi.event.commandCode = CommandCodeTimingClock ∨
      midi.event.commandCode = CommandCodeStartSequence ∨
      midi.event.commandCode = CommandCodeContinueSequence ∨
      midi.event.commandCode = CommandCodeStopSequence then (.ok none, midi.buffer)
  else if midi.event.commandCode = CommandCodeEox then (.error .notImplemented, midi.buffer)
  else if midi.event.commandCode = CommandCodeAutoSensing then
    (.error .notImplemented, midi.buffer)
  else if midi.event.commandCode = CommandCodeMetaEvent then midi.ReadMetaEvent
  else (.error .invalidCommandCode, midi.buffer)

/-- `Midi.ReadEvent`: status byte, running-status resolution (with the
one-byte pushback), update of the stored command/channel, then dispatch. -/
def Midi.ReadEvent (midi : Midi) : Except Err (Option MEvent) × Midi :=
  match midi.buffer.readByte with
  | .error e => (.error e, midi)
  | .ok (b, buf1) =>
    let step : Except Err (Nat × Nat × Buffer) :=
      if b &&& 0x80 = 0 then
        match buf1.unreadByte with
        | .error e => .error e
        | .ok buf2 => .ok (midi.event.commandCode, midi.event.channel, buf2)
      else if b &&& 0xF0 = 0xF0 then .ok (b, 1, buf1)
      else .ok (b &&& 0xF0, (b &&& 0x0F) + 1, buf1)
    match step with
    | .error e => (.error e, { midi with buffer := buf1 })
    | .ok (cc, ch, buf2) =>
      let m2 : Midi :=
        { midi with
          buffer := buf2
          event := { midi.event with commandCode := cc, channel := ch } }
      let r := m2.dispatchEvent
      (r.1, { m2 with buffer := r.2 })

/-- `Midi.ReadNextEvent`: varint delta (assigned to `event.delta` even on
failure), cumulative-time update (`uint64` wrapping add), then `ReadEvent`. -/
def Midi.ReadNextEvent (midi : Midi) : Except Err (Option MEvent) × Midi :=
  match ReadUVarInt midi.buffer with
  | ((some e, v), buf') =>
    (.error e, { midi with buffer := buf', event := { midi.event with delta := v } })
  | ((none, d), buf') =>
    let m1 : Midi :=
      { midi with
        buffer := buf'
        event := { midi.event with delta := d }
        mtrk := { midi.mtrk with time_pos := (midi.mtrk.time_pos + d) % 2 ^ 64 } }
    m1.ReadEvent

/-- The byte values of the "MThd" magic. -/
def mthdMagic : List Nat := [0x4D, 0x54, 0x68, 0x64]

/-- The byte values of the "MTrk" magic. -/
def mtrkMagic : List Nat := [0x4D, 0x54, 0x72, 0x6B]

/-- `Midi.ReadMThdMarker`: four bytes that must equal "MThd". -/
def Midi.ReadMThdMarker (midi : Midi) : Option Err × Buffer :=
  match midi.buffer.readBytes 4 with
  | (.error e, buf') => (some e, buf')
  | (.ok bs, buf') => if bs ≠ mthdMagic then (some .invalidHeader, buf') else (none, buf')

/-- `Midi.readMTrkMarker`: four bytes that must equal "MTrk". -/
def Midi.readMTrkMarker (midi : Midi) : Option Err × Buffer :=
  match midi.buffer.readBytes 4 with
  | (.error e, buf') => (some e, buf')
  | (.ok bs, buf') => if bs ≠ mtrkMagic then (some .invalidHeader, buf') else (none, buf')

/-- `Midi.ReadMThd`: magic, then big-endian `int32` length and `int16`
format, track count and division. -/
def Midi.ReadMThd (midi : Midi) : Option Err × Midi :=
  match midi.ReadMThdMarker with
  | (some e, buf') => (some e, { midi with buffer := buf' })
  | (none, buf0) =>
    match buf0.readIntBE 4 with
    | (.error e, buf') => (some e, { midi with buffer := buf' })
    | (.ok length, buf1) =>
      match buf1.readIntBE 2 with
      | (.error e, buf') =>
        (some e, { midi with buffer := buf', mthd := { midi.mthd with length := length } })
      | (.ok format, buf2) =>
        match buf2.readIntBE 2 with
        | (.error e, buf') =>
          (some e,
            { midi with
              buffer := buf'
              mthd := { midi.mthd with length := length, format := format } })
        | (.ok tracks, buf3) =>
          match buf3.readIntBE 2 with
          | (.error e, buf') =>
            (some e,
              { midi with
                buffer := buf'
                mthd :=
                  { midi.mthd with length := length, format := format, tracks := tracks } })
          | (.ok division, buf4) =>
            (none,
              { midi with
                buffer := buf4
                mthd :=
                  { length := length, format := format
                    tracks := tracks, division := division } })

/-- `Midi.ReadMTrkFormat0`: not implemented. -/
def Midi.ReadMTrkFormat0 (midi : Midi) : Option Err × Midi :=
  (some .notImplemented, midi)

/-- `Midi.ReadMTrkFormat1`: big-endian `int32` chunk length, then
`end_pos = buffer.Len() - int(length)` with `Len()` taken after the read. -/
def Midi.ReadMTrkFormat1 (midi : Midi) : Option Err × Midi :=
  match midi.buffer.readIntBE 4 with
  | (.error e, buf') => (some e, { midi with buffer := buf' })
  | (.ok length, buf') =>
    (none,
      { midi with
        buffer := buf'
        mtrk := { midi.mtrk with length := length, end_pos := (buf'.len : Int) - length } })

/-- `Midi.ReadMTrkFormat2`: not implemented. -/
def Midi.ReadMTrkFormat2 (midi : Midi) : Option Err × Midi :=
  (some .notImplemented, midi)

/-- `Midi.ReadMTrk`: magic, then the per-format track-frame reader. -/
def Midi.ReadMTrk (midi : Midi) : Option Err × Midi :=
  match midi.readMTrkMarker with
  | (some e, buf') => (some e, { midi with buffer := buf' })
  | (none, buf0) =>
    let m0 : Midi := { midi with buffer := buf0 }
    if midi.mthd.format = 0 then m0.ReadMTrkFormat0
    else if midi.mthd.format = 1 then m0.ReadMTrkFormat1
    else if midi.mthd.format = 2 then m0.ReadMTrkFormat2
    else (some .invalidHeader, m0)

/-- Wrapping increment of an `int16` value. -/
def int16succ (i : Int) : Int := (i + 1 + 2 ^ 15) % 2 ^ 16 - 2 ^ 15

/-- `Midi.ReadNextMTrk`: advance the track counter, then read the frame. -/
def Midi.ReadNextMTrk (midi : Midi) : Option Err × Midi :=
  Midi.ReadMTrk { midi with mtrk := { midi.mtrk with track := int16succ midi.mtrk.track } }

/-- `Midi.HasNextMTrk`. -/
def Midi.HasNextMTrk (midi : Midi) : Bool := midi.mtrk.track < midi.mthd.tracks

/-- `Midi.HasNextEvent`: the cursor's remaining count still exceeds the
frame's recorded end position. -/
def Midi.HasNextEvent (midi : Midi) : Bool := (midi.buffer.len : Int) > midi.mtrk.end_pos

/-- The running-status byte sequence of spec §8: NoteOn status, two data
bytes, then two further data bytes with no status, each event preceded by a
zero delta. -/
def c5bytes : List Nat := [0x00, 0x90, 0x40, 0x7F, 0x00, 0x41, 0x5A]

/-- First `ReadNextEvent` call on a fresh decoder over `c5bytes`. -/
def c5r1 : Except Err (Option MEvent) × Midi := (NewMidi c5bytes).ReadNextEvent

/-- Second `ReadNextEvent` call, continuing from the first. -/
def c5r2 : Except Err (Option MEvent) × Midi := (c5r1.2).ReadNextEvent

/-- A two-track format-1 file: header (format 1, 2 tracks, division 96); track
one holds one NoteOn at delta 5 and ends at its frame boundary; track two
holds one NoteOn (explicit status) at delta 0. -/
def c6file : List Nat :=
  mthdMagic ++ [0, 0, 0, 6, 0, 1, 0, 2, 0, 96] ++
  mtrkMagic ++ [0, 0, 0, 4, 0x05, 0x90, 0x40, 0x7F] ++
  mtrkMagic ++ [0, 0, 0, 4, 0x00, 0x90, 0x41, 0x5A]

/-- Session state after the header of `c6file`. -/
def c6s1 : Midi := ((NewMidi c6file).ReadMThd).2

/-- Session state after entering track one of `c6file`. -/
def c6s2 : Midi := (c6s1.ReadNextMTrk).2

/-- Session state after track one's single event (delta 5). -/
def c6s3 : Midi := (c6s2.ReadNextEvent).2

/-- Session state after entering track two of `c6file`. -/
def c6s4 : Midi := (c6s3.ReadNextMTrk).2

/-- The first `ReadNextEvent` of track two of `c6file` (delta 0). -/
def c6r2 : Except Err (Option MEvent) × Midi := c6s4.ReadNextEvent

/-- A two-track format-1 file like `c6file`, but track two starts with a data
byte (0x41, high bit clear) instead of a status byte. -/
def c7file : List Nat :=
  mthdMagic ++ [0, 0, 0, 6, 0, 1, 0, 2, 0, 96] ++
  mtrkMagic ++ [0, 0, 0, 4, 0x05, 0x90, 0x40, 0x7F] ++
  mtrkMagic ++ [0, 0, 0, 3, 0x00, 0x41, 0x5A]

/-- Session state after the header of `c7file`. -/
def c7s1 : Midi := ((NewMidi c7file).ReadMThd).2

/-- Session state after entering track one of `c7file`. -/
def c7s2 : Midi := (c7s1.ReadNextMTrk).2

/-- Session state after track one's single event. -/
def c7s3 : Midi := (c7s2.ReadNextEvent).2

/-- Session state after entering track two of `c7file`. -/
def c7s4 : Midi := (c7s3.ReadNextMTrk).2

/-- The first `ReadNextEvent` of track two of `c7file`: a running-status
continuation whose status byte lives in track one. -/
def c7r : Except Err (Option MEvent) × Midi := c7s4.ReadNextEvent

theorem Buffer.readByte_ok {buf : Buffer} {b : Nat} {buf' : Buffer}
    (h : buf.readByte = .ok (b, buf')) :
    buf'.data = buf.data ∧ buf'.pos = buf.pos + 1 ∧ buf.pos < buf.data.length := by
  unfold Buffer.readByte at h
  rcases hg : buf.data[buf.pos]? with _ | v
  · rw [hg] at h; exact absurd h (by simp)
  · rw [hg] at h
    have hlt : buf.pos < buf.data.length := by
      by_contra hge
      rw [List.getElem?_eq_none (by omega)] at hg
      exact absurd hg (by simp)
    simp only [Except.ok.injEq, Prod.mk.injEq] at h
    refine ⟨?_, ?_, hlt⟩
    · rw [← h.2]
    · rw [← h.2]

theorem drop_eq_cons_getElem {l : List Nat} {p : Nat} {b : Nat} {t : List Nat}
    (h : l.drop p = b :: t) : l[p]? = some b ∧ l.drop (p + 1) = t := by
  have hlt : p < l.length := by
    by_contra hge
    rw [List.drop_eq_nil_of_le (by omega)] at h
    exact absurd h (by simp)
  have hcons := List.drop_eq_getElem_cons hlt
  rw [h] at hcons
  obtain ⟨hb, ht⟩ := List.cons.inj hcons.symm
  exact ⟨by rw [List.getElem?_eq_getElem hlt, hb], ht⟩

theorem lor_mul_pow {x : Nat} (v s : Nat) (hx : x < 2 ^ s) :
    x ||| v * 2 ^ s = x + v * 2 ^ s := by
  calc x ||| v * 2 ^ s = v * 2 ^ s ||| x := Nat.lor_comm _ _
    _ = 2 ^ s * v ||| x := by rw [Nat.mul_comm]
    _ = 2 ^ s * v + x := (Nat.mul_add_lt_is_or hx v).symm
    _ = x + v * 2 ^ s := by ring

theorem land_0x7f (a : Nat) : a &&& 0x7f = a % 0x80 := by
  have h := Nat.and_pow_two_sub_one_eq_mod a 7
  norm_num at h
  exact h


theorem encodeUVarInt_length_le :
    ∀ (k v : Nat), v < 2 ^ (7 * (k + 1)) → (encodeUVarInt v).length ≤ k + 1 := by
  intro k
  induction k with
  | zero =>
    intro v hv
    have h128 : (2 : Nat) ^ (7 * (0 + 1)) = 0x80 := by norm_num
    rw [h128] at hv
    unfold encodeUVarInt
    rw [if_pos hv]
    simp
  | succ k ih =>
    intro v hv
    unfold encodeUVarInt
    by_cases hsmall : v < 0x80
    · rw [if_pos hsmall]
      simp
    · rw [if_neg hsmall]
      simp only [List.length_cons]
      have hdiv : v / 0x80 < 2 ^ (7 * (k + 1)) := by
        rw [Nat.div_lt_iff_lt_mul (by norm_num)]
        calc v < 2 ^ (7 * (k + 1 + 1)) := hv
          _ = 2 ^ (7 * (k + 1)) * 0x80 := by
            rw [show (0x80 : Nat) = 2 ^ 7 from by norm_num, ← Nat.pow_add]
            congr 1
      have := ih (v / 0x80) hdiv
      omega

theorem readUVarIntAux_encode :
    ∀ (v fuel x i : Nat) (buf : Buffer) (rest : List Nat),
      buf.data.drop buf.pos = encodeUVarInt v ++ rest →
      (encodeUVarInt v).length ≤ fuel →
      x < 2 ^ (7 * i) →
      v < 2 ^ (7 * (5 - i)) →
      i ≤ 4 →
      readUVarIntAux fuel buf x (7 * i) i =
        ((none, x + v * 2 ^ (7 * i)),
         { buf with pos := buf.pos + (encodeUVarInt v).length }) := by
  intro v
  induction v using Nat.strong_induction_on with
  | _ v ih =>
    intro fuel x i buf rest hdrop hfuel hx hv hi
    have hpow28 : 2 ^ (7 * i) ≤ 2 ^ 28 := Nat.pow_le_pow_right (by norm_num) (by omega)
    by_cases hsmall : v < 0x80
    · rw [show encodeUVarInt v = [v] from by unfold encodeUVarInt; rw [if_pos hsmall]] at *
      obtain ⟨f, rfl⟩ : ∃ f, fuel = f + 1 := ⟨fuel - 1, by simp at hfuel; omega⟩
      obtain ⟨hget, -⟩ := drop_eq_cons_getElem (by simpa using hdrop)
      have hshift : v <<< (7 * i) = v * 2 ^ (7 * i) := Nat.shiftLeft_eq v (7 * i)
      have hlt64 : v * 2 ^ (7 * i) < 2 ^ 64 := by
        calc v * 2 ^ (7 * i) ≤ 127 * 2 ^ 28 := Nat.mul_le_mul (by omega) hpow28
          _ < 2 ^ 64 := by norm_num
      simp only [readUVarIntAux, Buffer.readByte, hget]
      rw [if_pos hsmall, if_neg (show ¬ (i > 5 ∨ (i = 5 ∧ v > 1)) from by omega)]
      rw [hshift, Nat.mod_eq_of_lt hlt64, lor_mul_pow v (7 * i) hx]
      norm_num
    · have henc : encodeUVarInt v = (v % 0x80 + 0x80) :: encodeUVarInt (v / 0x80) := by
        conv_lhs => rw [encodeUVarInt.eq_def]
        rw [if_neg hsmall]
      rw [henc] at hdrop hfuel ⊢
      simp only [List.length_cons] at hfuel ⊢
      obtain ⟨f, rfl⟩ : ∃ f, fuel = f + 1 := ⟨fuel - 1, by omega⟩
      obtain ⟨hget, hdrop'⟩ := drop_eq_cons_getElem (by simpa using hdrop)
      have hbig : ¬ (v % 0x80 + 0x80 < 0x80) := by omega
      have hland : (v % 0x80 + 0x80) &&& 0x7f = v % 0x80 := by
        rw [land_0x7f]; omega
      have hshift : (v % 0x80) <<< (7 * i) = (v % 0x80) * 2 ^ (7 * i) :=
        Nat.shiftLeft_eq _ _
      have hlt64 : (v % 0x80) * 2 ^ (7 * i) < 2 ^ 64 := by
        calc (v % 0x80) * 2 ^ (7 * i) ≤ 127 * 2 ^ 28 := by
              exact Nat.mul_le_mul (by omega) hpow28
          _ < 2 ^ 64 := by norm_num
      have hi3 : i ≤ 3 := by
        by_contra hgt
        have hi4 : i = 4 := by omega
        rw [hi4] at hv
        have : (2 : Nat) ^ (7 * (5 - 4)) = 0x80 := by norm_num
        rw [this] at hv
        omega
      have hx' : x + (v % 0x80) * 2 ^ (7 * i) < 2 ^ (7 * (i + 1)) := by
        have hvm : v % 0x80 < 0x80 := Nat.mod_lt _ (by norm_num)
        have hmul : (v % 0x80) * 2 ^ (7 * i) ≤ 127 * 2 ^ (7 * i) :=
          Nat.mul_le_mul_right _ (by omega)
        have hpow : (0x80 : Nat) * 2 ^ (7 * i) = 2 ^ (7 * (i + 1)) := by
          rw [show (0x80 : Nat) = 2 ^ 7 from by norm_num, ← Nat.pow_add]
          congr 1
          ring
        omega
      have hv' : v / 0x80 < 2 ^ (7 * (5 - (i + 1))) := by
        rw [Nat.div_lt_iff_lt_mul (by norm_num)]
        calc v < 2 ^ (7 * (5 - i)) := hv
          _ = 2 ^ (7 * (5 - (i + 1))) * 0x80 := by
            rw [show (0x80 : Nat) = 2 ^ 7 from by norm_num, ← Nat.pow_add]
            congr 1
            omega
      have hrec := ih (v / 0x80) (Nat.div_lt_self (by omega) (by norm_num)) f
        (x + (v % 0x80) * 2 ^ (7 * i)) (i + 1) { buf with pos := buf.pos + 1 } rest
        hdrop' (by omega) hx' hv' (by omega)
      simp only [readUVarIntAux, Buffer.readByte, hget]
      rw [if_neg hbig, hland, hshift, Nat.mod_eq_of_lt hlt64,
        lor_mul_pow (v % 0x80) (7 * i) hx]
      rw [show 7 * i + 7 = 7 * (i + 1) from by ring]
      rw [hrec]
      have hval : x + (v % 0x80) * 2 ^ (7 * i) + v / 0x80 * 2 ^ (7 * (i + 1)) =
          x + v * 2 ^ (7 * i) := by
        have hmod := Nat.div_add_mod v 0x80
        calc x + (v % 0x80) * 2 ^ (7 * i) + v / 0x80 * 2 ^ (7 * (i + 1)) =
            x + (0x80 * (v / 0x80) + v % 0x80) * 2 ^ (7 * i) := by
              rw [show 7 * (i + 1) = 7 * i + 7 from by ring, Nat.pow_add]
              ring
          _ = x + v * 2 ^ (7 * i) := by rw [hmod]
      rw [hval, show buf.pos + 1 + (encodeUVarInt (v / 0x80)).length
          = buf.pos + ((encodeUVarInt (v / 0x80)).length + 1) from by omega]


theorem readUVarIntAux_i_ge_6 :
    ∀ (fuel : Nat) (buf : Buffer) (x s i : Nat), 6 ≤ i →
      (readUVarIntAux fuel buf x s i).1 = (some Err.varInt32Overflow, 0) := by
  intro fuel
  induction fuel with
  | zero => intro buf x s i hi; rfl
  | succ fuel ih =>
    intro buf x s i hi
    unfold readUVarIntAux
    rcases hb : buf.readByte with e | ⟨b, buf'⟩
    · rfl
    · dsimp only
      by_cases hsmall : b < 0x80
      · rw [if_pos hsmall, if_pos (by omega)]
      · rw [if_neg hsmall]
        exact ih buf' _ _ (i + 1) (by omega)

theorem readUVarIntAux_cont :
    ∀ (cs : List Nat) (fuel : Nat) (buf : Buffer) (x s i : Nat) (rest : List Nat),
      (∀ c ∈ cs, 0x80 ≤ c) →
      buf.data.drop buf.pos = cs ++ rest →
      6 ≤ i + cs.length →
      (readUVarIntAux fuel buf x s i).1 = (some Err.varInt32Overflow, 0) := by
  intro cs
  induction cs with
  | nil =>
    intro fuel buf x s i rest _ _ hi
    exact readUVarIntAux_i_ge_6 fuel buf x s i (by simpa using hi)
  | cons c cs ih =>
    intro fuel buf x s i rest hcs hdrop hi
    obtain ⟨hget, hdrop'⟩ := drop_eq_cons_getElem (by simpa using hdrop)
    cases fuel with
    | zero => rfl
    | succ fuel =>
      unfold readUVarIntAux
      simp only [Buffer.readByte, hget]
      rw [if_neg (show ¬ (c < 0x80) from by
        have := hcs c (List.mem_cons_self c cs)
        omega)]
      exact ih fuel { buf with pos := buf.pos + 1 } _ _ (i + 1) rest
        (fun d hd => hcs d (List.mem_cons_of_mem c hd)) hdrop'
        (by simp at hi ⊢; omega)

theorem readUVarIntAux_term6 :
    ∀ (cs : List Nat) (fuel : Nat) (buf : Buffer) (x s i : Nat) (b : Nat) (rest : List Nat),
      (∀ c ∈ cs, 0x80 ≤ c) → b < 0x80 → 1 < b →
      buf.data.drop buf.pos = cs ++ b :: rest →
      cs.length + i = 5 →
      (readUVarIntAux fuel buf x s i).1 = (some Err.varInt32Overflow, 0) := by
  intro cs
  induction cs with
  | nil =>
    intro fuel buf x s i b rest _ hb hb1 hdrop hlen
    obtain ⟨hget, -⟩ := drop_eq_cons_getElem (by simpa using hdrop)
    cases fuel with
    | zero => rfl
    | succ fuel =>
      unfold readUVarIntAux
      simp only [Buffer.readByte, hget]
      rw [if_pos hb, if_pos (by simp at hlen; omega)]
  | cons c cs ih =>
    intro fuel buf x s i b rest hcs hb hb1 hdrop hlen
    obtain ⟨hget, hdrop'⟩ := drop_eq_cons_getElem (by simpa using hdrop)
    cases fuel with
    | zero => rfl
    | succ fuel =>
      unfold readUVarIntAux
      simp only [Buffer.readByte, hget]
      rw [if_neg (show ¬ (c < 0x80) from by
        have := hcs c (List.mem_cons_self c cs)
        omega)]
      exact ih fuel { buf with pos := buf.pos + 1 } _ _ (i + 1) b rest
        (fun d hd => hcs d (List.mem_cons_of_mem c hd)) hb hb1 hdrop'
        (by simp at hlen ⊢; omega)

theorem readUVarIntAux_all_cont :
    ∀ (fuel : Nat) (buf : Buffer) (x s i : Nat),
      (∀ b ∈ buf.data.drop buf.pos, 0x80 ≤ b) →
      (readUVarIntAux fuel buf x s i).1 = (some Err.varInt32Overflow, 0) := by
  intro fuel
  induction fuel with
  | zero => intro buf x s i _; rfl
  | succ fuel ih =>
    intro buf x s i hall
    unfold readUVarIntAux
    rcases hb : buf.readByte with e | ⟨b, buf'⟩
    · rfl
    · dsimp only
      obtain ⟨hdata, hpos, hlt⟩ := Buffer.readByte_ok hb
      have hbmem : b ∈ buf.data.drop buf.pos := by
        have hcons := List.drop_eq_getElem_cons hlt
        have hgetb : buf.data[buf.pos] = b := by
          have := hb
          unfold Buffer.readByte at this
          rw [List.getElem?_eq_getElem hlt] at this
          simp only [Except.ok.injEq, Prod.mk.injEq] at this
          exact this.1
        rw [hcons, hgetb]
        exact List.mem_cons_self _ _
      rw [if_neg (show ¬ (b < 0x80) from by have := hall b hbmem; omega)]
      refine ih buf' _ _ (i + 1) ?_
      intro d hd
      refine hall d ?_
      rw [hdata, hpos] at hd
      have hsub : buf.data.drop (buf.pos + 1) ⊆ buf.data.drop buf.pos := by
        rw [← List.drop_drop]
        exact List.drop_subset _ _
      exact hsub hd

/-- C3: for every v < 2^35, encoding v with the 7-bit-per-byte
low-order-first continuation-bit scheme and decoding with `ReadUVarInt`
yields v back and consumes exactly the encoded bytes, whatever follows. -/
theorem c3_varint_roundtrip (v : Nat) (rest : List Nat) (hv : v < 2 ^ 35) :
    ReadUVarInt { data := encodeUVarInt v ++ rest, pos := 0 } =
      ((none, v),
       { data := encodeUVarInt v ++ rest, pos := (encodeUVarInt v).length }) := by
  have haux := readUVarIntAux_encode v
    (({ data := encodeUVarInt v ++ rest, pos := 0 } : Buffer).len + 1) 0 0
    { data := encodeUVarInt v ++ rest, pos := 0 } rest
    (by simp)
    (by simp [Buffer.len, List.length_append]; omega)
    (by norm_num)
    (by simpa using hv)
    (by norm_num)
  unfold ReadUVarInt
  rw [show (7 : Nat) * 0 = 0 from rfl] at haux
  rw [haux]
  norm_num

theorem ReadEvent_mtrk (m : Midi) : ((m.ReadEvent).2).mtrk = m.mtrk := by
  unfold Midi.ReadEvent
  rcases hb : m.buffer.readByte with e | ⟨b, buf1⟩
  · rfl
  · dsimp only
    split
    · rfl
    · rfl

theorem ReadEvent_delta (m : Midi) : ((m.ReadEvent).2).event.delta = m.event.delta := by
  unfold Midi.ReadEvent
  rcases hb : m.buffer.readByte with e | ⟨b, buf1⟩
  · rfl
  · dsimp only
    split
    · rfl
    · rfl

theorem ReadEvent_running (m : Midi) (b : Nat) (buf1 : Buffer)
    (hread : m.buffer.readByte = .ok (b, buf1)) (hrun : b &&& 0x80 = 0) :
    ((m.ReadEvent).2).event.commandCode = m.event.commandCode
    ∧ ((m.ReadEvent).2).event.channel = m.event.channel := by
  unfold Midi.ReadEvent
  rw [hread]
  dsimp only
  rw [if_pos hrun]
  rcases hu : buf1.unreadByte with e | buf2
  · exact ⟨rfl, rfl⟩
  · exact ⟨rfl, rfl⟩

theorem ReadEvent_status (m : Midi) (b : Nat) (buf1 : Buffer)
    (hread : m.buffer.readByte = .ok (b, buf1)) (hstat : b &&& 0x80 ≠ 0) :
    ((m.ReadEvent).2).event.commandCode = (if b &&& 0xF0 = 0xF0 then b else b &&& 0xF0)
    ∧ ((m.ReadEvent).2).event.channel =
        (if b &&& 0xF0 = 0xF0 then 1 else (b &&& 0x0F) + 1) := by
  unfold Midi.ReadEvent
  rw [hread]
  dsimp only
  rw [if_neg hstat]
  by_cases hf : b &&& 0xF0 = 0xF0
  · rw [if_pos hf, if_pos hf, if_pos hf]
    exact ⟨rfl, rfl⟩
  · rw [if_neg hf, if_neg hf, if_neg hf]
    exact ⟨rfl, rfl⟩

theorem ReadNextMTrk_mtrk_time_pos (m : Midi) :
    ((m.ReadNextMTrk).2).mtrk.time_pos = m.mtrk.time_pos := by
  unfold Midi.ReadNextMTrk Midi.ReadMTrk Midi.ReadMTrkFormat0 Midi.ReadMTrkFormat1
    Midi.ReadMTrkFormat2
  split <;> try rfl
  all_goals try ((try dsimp only); split <;> try rfl)
  all_goals try ((try dsimp only); split <;> try rfl)
  all_goals try ((try dsimp only); split <;> try rfl)

theorem ReadNextMTrk_event (m : Midi) : ((m.ReadNextMTrk).2).event = m.event := by
  unfold Midi.ReadNextMTrk Midi.ReadMTrk Midi.ReadMTrkFormat0 Midi.ReadMTrkFormat1
    Midi.ReadMTrkFormat2
  split <;> try rfl
  all_goals try ((try dsimp only); split <;> try rfl)
  all_goals try ((try dsimp only); split <;> try rfl)
  all_goals try ((try dsimp only); split <;> try rfl)

theorem ReadMTrkFormat1_time_pos (m : Midi) :
    ((m.ReadMTrkFormat1).2).mtrk.time_pos = m.mtrk.time_pos := by
  unfold Midi.ReadMTrkFormat1
  split <;> rfl

theorem ReadMTrkFormat1_event (m : Midi) : ((m.ReadMTrkFormat1).2).event = m.event := by
  unfold Midi.ReadMTrkFormat1
  split <;> rfl

theorem ReadNextEvent_time (m : Midi) (d : Nat) (buf : Buffer)
    (h : ReadUVarInt m.buffer = ((none, d), buf)) :
    ((m.ReadNextEvent).2).mtrk.time_pos = (m.mtrk.time_pos + d) % 2 ^ 64
    ∧ ((m.ReadNextEvent).2).event.delta = d := by
  constructor
  · unfold Midi.ReadNextEvent
    rw [h]
    dsimp only
    rw [ReadEvent_mtrk]
  · unfold Midi.ReadNextEvent
    rw [h]
    dsimp only
    rw [ReadEvent_delta]

/-- C1 (code bug): for the SetTempo payload 0x07 0xA1 0x20 with declared
length 3, the decoder yields 32 microseconds per quarter note — the value of
`b3` alone — because the Go `byte` shifts `b1<<16` and `b2<<8` truncate to 8
bits and vanish; the specified value (b1<<16)+(b2<<8)+b3 = 500000 (each byte
widened before shifting) is not produced. -/
theorem c1_tempo_truncated :
    (NewMidi [0x07, 0xA1, 0x20]).ReadTempoEvent 3 =
      (.ok (some (.tempo { delta := 0, commandCode := 0, channel := 0 } 32)),
       { data := [0x07, 0xA1, 0x20], pos := 3 })
    ∧ ((0x07 : Nat) <<< 16) + ((0xA1 : Nat) <<< 8) + 0x20 = 500000
    ∧ (32 : Int) ≠ 500000 := by decide

/-- C2 (code bug): for the PitchWheelChange data bytes 0x00 0x02 (both high
bits clear) the decoder yields pitch 0, because the Go `byte` shift `b2<<7`
truncates to 8 bits before widening; the specified value b1 + (b2<<7) = 256
is not produced. -/
theorem c2_pitch_truncated :
    (NewMidi [0x00, 0x02]).ReadPitchWheelEvent =
      (.ok (some (.pitchWheel { delta := 0, commandCode := 0, channel := 0 } 0)),
       { data := [0x00, 0x02], pos := 2 })
    ∧ (0x00 : Nat) + ((0x02 : Nat) <<< 7) = 256
    ∧ (0 : Int) ≠ 256 := by decide

theorem c3_varint_roundtrip_witness :
    300 < 2 ^ 35 ∧
      ReadUVarInt { data := encodeUVarInt 300 ++ [0x2F], pos := 0 } =
        ((none, 300),
         { data := encodeUVarInt 300 ++ [0x2F], pos := (encodeUVarInt 300).length }) :=
  ⟨by norm_num, c3_varint_roundtrip 300 [0x2F] (by norm_num)⟩

/-- C4: the varint decoder accepts at most 5 continuation bytes and one
terminal byte.  A terminal 6th byte (index 5) with any bit above bit 0 set
fails with the overflow error, and any input whose first 6 bytes are all
continuation bytes fails with the overflow error. -/
theorem c4_varint_overflow :
    (∀ (c0 c1 c2 c3 c4 b : Nat) (rest : List Nat),
        0x80 ≤ c0 → 0x80 ≤ c1 → 0x80 ≤ c2 → 0x80 ≤ c3 → 0x80 ≤ c4 →
        b < 0x80 → 1 < b →
        (ReadUVarInt { data := [c0, c1, c2, c3, c4, b] ++ rest, pos := 0 }).1 =
          (some Err.varInt32Overflow, 0))
    ∧ (∀ (cs rest : List Nat), cs.length = 6 → (∀ c ∈ cs, 0x80 ≤ c) →
        (ReadUVarInt { data := cs ++ rest, pos := 0 }).1 =
          (some Err.varInt32Overflow, 0)) := by
  constructor
  · intro c0 c1 c2 c3 c4 b rest h0 h1 h2 h3 h4 hb hb1
    exact readUVarIntAux_term6 [c0, c1, c2, c3, c4] _ _ 0 0 0 b rest
      (by intro c hc; simp at hc; rcases hc with rfl | rfl | rfl | rfl | rfl <;> assumption)
      hb hb1 (by simp) (by simp)
  · intro cs rest hlen hcs
    exact readUVarIntAux_cont cs _ _ 0 0 0 rest hcs (by simp) (by omega)

theorem c4_varint_overflow_witness :
    (ReadUVarInt { data := [0x80, 0x80, 0x80, 0x80, 0x80, 0x02], pos := 0 }).1 =
      (some Err.varInt32Overflow, 0)
    ∧ (ReadUVarInt { data := [0x81, 0x82, 0x83, 0x84, 0x85, 0x86, 0x00], pos := 0 }).1 =
      (some Err.varInt32Overflow, 0) :=
  ⟨c4_varint_overflow.1 0x80 0x80 0x80 0x80 0x80 0x02 []
      (by norm_num) (by norm_num) (by norm_num) (by norm_num) (by norm_num)
      (by norm_num) (by norm_num),
   c4_varint_overflow.2 [0x81, 0x82, 0x83, 0x84, 0x85, 0x86] [0x00]
      (by decide) (by decide)⟩

/-- C5: the byte sequence 0x90 0x40 0x7F 0x41 0x5A, with each of the two
events preceded by a zero delta, decodes to two NoteOn events on channel 1
with keys 0x40/0x41 and velocities 0x7F/0x5A; all 7 bytes (2 deltas plus the
5 event bytes) are consumed, and the stored running-status command/channel
are 0x90/1 after both events — the second event reuses them unchanged. -/
theorem c5_running_status :
    c5r1.1 = .ok (some (.noteOn { delta := 0, commandCode := 0x90, channel := 1 } 0x40 0x7F))
    ∧ c5r2.1 = .ok (some (.noteOn { delta := 0, commandCode := 0x90, channel := 1 } 0x41 0x5A))
    ∧ (c5r2.2).buffer.pos = 7
    ∧ (c5r1.2).event.commandCode = 0x90 ∧ (c5r1.2).event.channel = 1
    ∧ (c5r2.2).event.commandCode = 0x90 ∧ (c5r2.2).event.channel = 1 := by decide

/-- C6 counterexample: in the two-track session over `c6file`, track one ends
with cumulative time 5; after the track-two frame is read the counter still
holds 5 — not 0 — and track two's first event (delta 0) is emitted at
cumulative time 5.  This refutes the claim that the counter is per-track and
starts at zero at each track's start. -/
theorem c6_counterexample :
    c6s3.mtrk.time_pos = 5
    ∧ c6s3.HasNextEvent = false
    ∧ c6s4.mtrk.time_pos = 5
    ∧ c6s4.mtrk.time_pos ≠ 0
    ∧ (c6r2.2).event.delta = 0
    ∧ (c6r2.2).mtrk.time_pos = 5 := by decide

/-- C6 as amended: the cumulative-time counter is a single session-wide
`uint64` counter: it is 0 when the decoder is created, is never touched by
the track-frame readers (so it is NOT reset at a track's start), and on each
`ReadNextEvent` whose delta varint succeeds it is incremented by the delta
(modulo 2^64) before the event is decoded, hence non-decreasing whenever the
sum does not wrap. -/
theorem c6_cumulative_time_amended :
    (∀ data : List Nat, (NewMidi data).mtrk.time_pos = 0)
    ∧ (∀ m : Midi, ((m.ReadMTrkFormat1).2).mtrk.time_pos = m.mtrk.time_pos)
    ∧ (∀ m : Midi, ((m.ReadNextMTrk).2).mtrk.time_pos = m.mtrk.time_pos)
    ∧ (∀ (m : Midi) (d : Nat) (buf : Buffer),
        ReadUVarInt m.buffer = ((none, d), buf) →
        ((m.ReadNextEvent).2).mtrk.time_pos = (m.mtrk.time_pos + d) % 2 ^ 64
        ∧ ((m.ReadNextEvent).2).event.delta = d
        ∧ (m.mtrk.time_pos + d < 2 ^ 64 →
            m.mtrk.time_pos ≤ ((m.ReadNextEvent).2).mtrk.time_pos)) := by
  refine ⟨fun data => rfl, ReadMTrkFormat1_time_pos, ReadNextMTrk_mtrk_time_pos, ?_⟩
  intro m d buf h
  obtain ⟨h1, h2⟩ := ReadNextEvent_time m d buf h
  exact ⟨h1, h2, fun hlt => by rw [h1, Nat.mod_eq_of_lt hlt]; omega⟩

theorem c6_cumulative_time_amended_witness :
    ReadUVarInt (NewMidi [0x05, 0x90, 0x40, 0x7F]).buffer =
      ((none, 5), { data := [0x05, 0x90, 0x40, 0x7F], pos := 1 })
    ∧ (((NewMidi [0x05, 0x90, 0x40, 0x7F]).ReadNextEvent).2).mtrk.time_pos =
      (0 + 5) % 2 ^ 64 :=
  ⟨by decide,
   (c6_cumulative_time_amended.2.2.2 (NewMidi [0x05, 0x90, 0x40, 0x7F]) 5
      { data := [0x05, 0x90, 0x40, 0x7F], pos := 1 } (by decide)).1⟩

/-- C7 counterexample: in the two-track session over `c7file`, track one's
last status byte is 0x90 on channel 1; after the track-two frame is read the
stored running status still holds 0x90/1 — it is not reseeded — and track
two's leading data byte 0x41 decodes as a NoteOn by reusing the previous
track's status.  This refutes the claim that running-status state is
per-track, seeded empty at each track's start. -/
theorem c7_counterexample :
    c7s3.HasNextEvent = false
    ∧ c7s4.event.commandCode = 0x90
    ∧ c7s4.event.channel = 1
    ∧ c7r.1 = .ok (some (.noteOn { delta := 0, commandCode := 0x90, channel := 1 } 0x41 0x5A))
    ∧ (c7r.2).buffer.pos = c7file.length := by decide

/-- C7 as amended: running-status state (command code, channel) is a single
session-wide pair: zero at decoder creation, never touched by the track
readers (so a data byte at the start of a track CAN reuse the previous
track's status), left unchanged by a running-status byte (high bit clear),
and set from any status byte (high bit set): verbatim with channel 1 for the
0xF0-family, split into high nibble and low-nibble-plus-one otherwise. -/
theorem c7_running_status_amended :
    (∀ data : List Nat,
        (NewMidi data).event.commandCode = 0 ∧ (NewMidi data).event.channel = 0)
    ∧ (∀ m : Midi, ((m.ReadNextMTrk).2).event = m.event)
    ∧ (∀ (m : Midi) (b : Nat) (buf1 : Buffer),
        m.buffer.readByte = .ok (b, buf1) → b &&& 0x80 = 0 →
        ((m.ReadEvent).2).event.commandCode = m.event.commandCode
        ∧ ((m.ReadEvent).2).event.channel = m.event.channel)
    ∧ (∀ (m : Midi) (b : Nat) (buf1 : Buffer),
        m.buffer.readByte = .ok (b, buf1) → b &&& 0x80 ≠ 0 →
        ((m.ReadEvent).2).event.commandCode = (if b &&& 0xF0 = 0xF0 then b else b &&& 0xF0)
        ∧ ((m.ReadEvent).2).event.channel =
            (if b &&& 0xF0 = 0xF0 then 1 else (b &&& 0x0F) + 1)) :=
  ⟨fun _ => ⟨rfl, rfl⟩, ReadNextMTrk_event, ReadEvent_running, ReadEvent_status⟩

theorem c7_running_status_amended_witness :
    ({ buffer := { data := [0x41], pos := 0 }
       mthd := { length := 0, format := 0, tracks := 0, division := 0 }
       mtrk := { track := 0, length := 0, end_pos := 0, time_pos := 0 }
       event := { delta := 0, commandCode := 0x90, channel := 1 } } : Midi).buffer.readByte =
      .ok (0x41, { data := [0x41], pos := 1 })
    ∧ (0x41 : Nat) &&& 0x80 = 0
    ∧ ((({ buffer := { data := [0x41], pos := 0 }
           mthd := { length := 0, format := 0, tracks := 0, division := 0 }
           mtrk := { track := 0, length := 0, end_pos := 0, time_pos := 0 }
           event := { delta := 0, commandCode := 0x90, channel := 1 } } : Midi).ReadEvent).2).event.commandCode =
        0x90 :=
  ⟨by decide, by decide,
   (c7_running_status_amended.2.2.1 _ 0x41 { data := [0x41], pos := 1 }
      (by decide) (by decide)).1⟩

/-- C8: a SetTempo meta event whose declared length is not 3 fails with the
invalid-tempo-length error before reading any payload byte: the buffer
returned by the failing call is exactly the incoming buffer. -/
theorem c8_tempo_invalid_length (m : Midi) (len : Nat) (h : len ≠ 3) :
    m.ReadTempoEvent len = (.error Err.invalidTempoLength, m.buffer) := by
  unfold Midi.ReadTempoEvent
  rw [if_pos h]

theorem c8_tempo_invalid_length_witness :
    (2 : Nat) ≠ 3 ∧
      (NewMidi [0xA1, 0x20]).ReadTempoEvent 2 =
        (.error Err.invalidTempoLength, (NewMidi [0xA1, 0x20]).buffer) :=
  ⟨by decide, c8_tempo_invalid_length (NewMidi [0xA1, 0x20]) 2 (by decide)⟩

/-- C10: whenever every remaining byte has its high bit set — so the input is
exhausted before a terminal byte arrives, including on an empty buffer — the
varint decoder returns the overflow error with value 0; end-of-input is not
reported as `Err.eof` by `ReadUVarInt`. -/
theorem c10_varint_eof_overflow (buf : Buffer)
    (h : ∀ b ∈ buf.data.drop buf.pos, 0x80 ≤ b) :
    (ReadUVarInt buf).1 = (some Err.varInt32Overflow, 0)
    ∧ Err.varInt32Overflow ≠ Err.eof :=
  ⟨readUVarIntAux_all_cont _ buf 0 0 0 h, by decide⟩

theorem c10_varint_eof_overflow_witness :
    (ReadUVarInt { data := [], pos := 0 }).1 = (some Err.varInt32Overflow, 0)
    ∧ (ReadUVarInt { data := [0x81, 0x82], pos := 0 }).1 = (some Err.varInt32Overflow, 0) :=
  ⟨(c10_varint_eof_overflow { data := [], pos := 0 } (by decide)).1,
   (c10_varint_eof_overflow { data := [0x81, 0x82], pos := 0 } (by decide)).1⟩

/-- C9: when the format-1 track-frame reader succeeds, the stored declared
length is the signed big-endian int32 of the four bytes at the cursor, the
stored end position equals the remaining-byte count after that read (the
incoming remaining count minus 4) minus the declared length, and
`HasNextEvent` is true exactly while the current remaining count exceeds the
stored end position. -/
theorem c9_track_frame (m m' : Midi) (h : m.ReadMTrkFormat1 = (none, m')) :
    m'.mtrk.length = toSigned (beNat ((m.buffer.data.drop m.buffer.pos).take 4)) 32
    ∧ m'.mtrk.end_pos = ((m.buffer.len : Int) - 4) - m'.mtrk.length
    ∧ (∀ m'' : Midi, m''.HasNextEvent = true ↔ m''.mtrk.end_pos < (m''.buffer.len : Int)) := by
  unfold Midi.ReadMTrkFormat1 Buffer.readIntBE Buffer.readBytes at h
  by_cases hc : 4 ≤ m.buffer.len
  · have hmin : min 4 m.buffer.len = 4 := by omega
    rw [if_pos hmin, hmin] at h
    dsimp only at h
    rw [Prod.mk.injEq] at h
    obtain ⟨-, hm'⟩ := h
    subst hm'
    refine ⟨by norm_num, ?_, ?_⟩
    · dsimp only [Buffer.len] at hc ⊢
      generalize toSigned (beNat ((m.buffer.data.drop m.buffer.pos).take 4)) (8 * 4) = L
      omega
    · intro m''
      unfold Midi.HasNextEvent
      rw [decide_eq_true_iff]
  · rw [if_neg (by omega)] at h
    dsimp only at h
    rw [Prod.mk.injEq] at h
    exact absurd h.1 (by simp)

theorem c9_track_frame_witness :
    (NewMidi [0, 0, 0, 2, 0xAA, 0xBB]).ReadMTrkFormat1 =
      (none,
       { buffer := { data := [0, 0, 0, 2, 0xAA, 0xBB], pos := 4 }
         mthd := { length := 0, format := 0, tracks := 0, division := 0 }
         mtrk := { track := 0, length := 2, end_pos := 0, time_pos := 0 }
         event := { delta := 0, commandCode := 0, channel := 0 } })
    ∧ ({ buffer := { data := [0, 0, 0, 2, 0xAA, 0xBB], pos := 4 }
         mthd := { length := 0, format := 0, tracks := 0, division := 0 }
         mtrk := { track := 0, length := 2, end_pos := 0, time_pos := 0 }
         event := { delta := 0, commandCode := 0, channel := 0 } } : Midi).mtrk.end_pos =
        (((NewMidi [0, 0, 0, 2, 0xAA, 0xBB]).buffer.len : Int) - 4) - 2 :=
  ⟨by decide,
   (c9_track_frame (NewMidi [0, 0, 0, 2, 0xAA, 0xBB]) _ (by decide)).2.1⟩
end Midibot
